import Mathlib

/-!
Verification development for the pycozmo reliable-transport client
(`pycozmo/client.py`): frame/packet data model, send/receive sliding
windows, the receive/send loop packet handling, and the client session
state machine.  Definitions are shallow embeddings of the Python source;
components of the repository whose source files are not available
(`window.py`, `frame.py`, the protocol declarations) are modelled from
the specification document and marked as such in their doc comments.
-/

namespace PyCozmo

/-- Sequence-number bit width used by the client (`seq_bits = 16`). -/
def seqBits : Nat := 16

/-- Size of the sequence-number space, `2 ^ seq_bits = 65536`. -/
def maxSeq : Nat := 2 ^ seqBits

/-- Half the sequence space, used for signed-distance comparisons. -/
def halfSeq : Nat := 2 ^ (seqBits - 1)

/-- Forward distance from `a` to `b` modulo `2 ^ seq_bits`. -/
def fwdDist (a b : Nat) : Nat := (b + maxSeq - a % maxSeq) % maxSeq

/-- Packet kinds relevant to the transport core.  The concrete catalogue of
packet encodings lives in `protocol_encoder`/`protocol_base`, which are not
part of the shown sources; the client code only distinguishes the kinds
below (plus a generic unknown/other bucket). -/
inductive PacketKind where
  | connect
  | disconnect
  | ping
  | nextFrame
  | displayImage
  | firmwareSignature
  | unknownCommand
  | event
  | other
  deriving DecidableEq, Repr

/-- A protocol packet: its kind, the sequence and ack fields it carries
(as decoded from the enclosing frame), and its raw payload bytes. -/
structure Packet where
  kind : PacketKind
  seq : Nat
  ack : Nat
  payload : List Nat
  deriving DecidableEq, Repr

/-- Modelled from the spec: each packet variant declares
`is_out_of_band: bool`, true for packets such as keepalive pings and
asynchronous events that must bypass ordering (`protocol_base.Packet.is_oob`
is not in the shown sources). -/
def Packet.is_oob (p : Packet) : Bool :=
  match p.kind with
  | .ping => true
  | .event => true
  | _ => false

/-- Frame types (`protocol_declaration.FrameType`, modelled from the spec:
`enum{RESET, ENGINE, PING, DISCONNECT}`). -/
inductive FrameType where
  | reset
  | engine
  | ping
  | disconnect
  deriving DecidableEq, Repr

/-- A frame: one datagram payload. -/
structure Frame where
  type : FrameType
  first_seq : Nat
  seq : Nat
  ack : Nat
  pkts : List Packet
  deriving DecidableEq, Repr

/-! ## Receive window

Modelled from the spec (`window.py` is not among the shown sources):
`{ expected_seq, capacity, buffer: mapping seq → Packet }`, accepting only
a seq within `[expected_seq, expected_seq + capacity)` modulo wraparound,
with `get` popping entries strictly in increasing sequence order. -/

structure ReceiveWindow where
  expected_seq : Nat
  size : Nat
  buffer : List (Nat × Packet)
  deriving DecidableEq, Repr

/-- Initial receive window: `expected_seq` starts at the protocol's
initial value 1, with an empty buffer. -/
def ReceiveWindow.init (size : Nat) : ReceiveWindow :=
  ⟨1, size, []⟩

/-- Modelled from the spec: the window only accepts a seq within
`[expected_seq, expected_seq + capacity)` modulo wraparound; anything
else (behind `expected_seq`, or too far ahead) is out of order. -/
def ReceiveWindow.is_out_of_order (w : ReceiveWindow) (seq : Nat) : Bool :=
  decide (w.size ≤ fwdDist w.expected_seq seq)

/-- Modelled from the spec: true if `seq` is already buffered
(caller drops the packet as a duplicate). -/
def ReceiveWindow.hasSeq (w : ReceiveWindow) (seq : Nat) : Bool :=
  w.buffer.any (fun e => e.1 == seq)

/-- Modelled from the spec: buffer the packet under its sequence number. -/
def ReceiveWindow.put (w : ReceiveWindow) (seq : Nat) (pkt : Packet) : ReceiveWindow :=
  { w with buffer := w.buffer ++ [(seq, pkt)] }

/-- Modelled from the spec: true iff `seq == expected_seq`
(triggers an in-order delivery drain). -/
def ReceiveWindow.is_expected (w : ReceiveWindow) (seq : Nat) : Bool :=
  seq == w.expected_seq

/-- Remove the entry keyed `seq` from an association list, returning the
stored packet and the remaining entries. -/
def popSeq (seq : Nat) : List (Nat × Packet) → Option (Packet × List (Nat × Packet))
  | [] => none
  | e :: rest =>
    if e.1 = seq then some (e.2, rest)
    else
      match popSeq seq rest with
      | none => none
      | some (p, rest') => some (p, e :: rest')

/-- Modelled from the spec: if the buffer contains `expected_seq`, remove
and return that packet and increment `expected_seq` (mod `2 ^ seq_bits`);
otherwise return nothing. -/
def ReceiveWindow.get (w : ReceiveWindow) : Option Packet × ReceiveWindow :=
  match popSeq w.expected_seq w.buffer with
  | none => (none, w)
  | some (p, rest) =>
    (some p, { w with expected_seq := (w.expected_seq + 1) % maxSeq, buffer := rest })

/-- Modelled from the spec: clear the buffer and set `expected_seq` back
to the protocol's initial value 1. -/
def ReceiveWindow.resetW (w : ReceiveWindow) : ReceiveWindow :=
  { w with expected_seq := 1, buffer := [] }

/-! ## Receive thread packet handling (`ReceiveThread` in `client.py`) -/

/-- The receive thread's window together with its output queue
(`ReceiveThread.window` and `ReceiveThread.queue`); `queue` lists the
packets pushed to the client, oldest first. -/
structure RecvState where
  window : ReceiveWindow
  queue : List Packet
  deriving DecidableEq, Repr

/-- Fresh receive thread state (window size 256, empty queue). -/
def RecvState.init : RecvState :=
  ⟨ReceiveWindow.init 256, []⟩

/-- Translation of `ReceiveThread.deliver`: push a packet to the output queue. -/
def RecvState.deliver (st : RecvState) (pkt : Packet) : RecvState :=
  { st with queue := st.queue ++ [pkt] }

/-- The loop body of `ReceiveThread.deliver_sequence`, with explicit fuel:
repeatedly `get` from the window and deliver, stopping when the window
yields nothing.  Each successful `get` removes one buffer entry, so fuel
`buffer.length + 1` reproduces the unbounded Python loop. -/
def deliverLoop : Nat → RecvState → RecvState
  | 0, st => st
  | fuel + 1, st =>
    match st.window.get with
    | (none, _) => st
    | (some p, w') => deliverLoop fuel { window := w', queue := st.queue ++ [p] }

/-- Translation of `ReceiveThread.deliver_sequence`: drain the window in order. -/
def RecvState.deliver_sequence (st : RecvState) : RecvState :=
  deliverLoop (st.window.buffer.length + 1) st

/-- Translation of `ReceiveThread.handle_pkt`: out-of-band packets are delivered
immediately, bypassing the window; ordered packets go through the
out-of-order check, duplicate check, buffering, and a conditional
in-order drain. -/
def RecvState.handle_pkt (st : RecvState) (pkt : Packet) : RecvState :=
  if pkt.is_oob then st.deliver pkt
  else if st.window.is_out_of_order pkt.seq then st
  else if st.window.hasSeq pkt.seq then st
  else
    let st' : RecvState := { st with window := st.window.put pkt.seq pkt }
    if st'.window.is_expected pkt.seq then st'.deliver_sequence else st'

/-- Translation of `ReceiveThread.handle_frame`: handle every packet of the frame in order. -/
def RecvState.handle_frame (st : RecvState) (f : Frame) : RecvState :=
  f.pkts.foldl RecvState.handle_pkt st

/-- Process a whole sequence of frames from the initial state. -/
def processFrames (frames : List Frame) : RecvState :=
  frames.foldl RecvState.handle_frame RecvState.init

/-- Sequence numbers of the non-out-of-band packets of a queue, in order. -/
def nonOobSeqs (q : List Packet) : List Nat :=
  (q.filter (fun p => !p.is_oob)).map Packet.seq

/-- The consecutive sequence values `start, start+1, …` (mod `2^seq_bits`). -/
def consecFrom (start n : Nat) : List Nat :=
  (List.range n).map (fun i => (start + i) % maxSeq)

end PyCozmo

namespace PyCozmo

theorem maxSeq_eq : maxSeq = 65536 := by norm_num [maxSeq, seqBits]

theorem halfSeq_eq : halfSeq = 32768 := by norm_num [halfSeq, seqBits]

theorem mod_succ_mod (x : Nat) : (x % maxSeq + 1) % maxSeq = (x + 1) % maxSeq := by
  rw [maxSeq_eq]; omega

theorem nonOobSeqs_append (q : List Packet) (p : Packet) :
    nonOobSeqs (q ++ [p]) = nonOobSeqs q ++ (if p.is_oob then [] else [p.seq]) := by
  by_cases h : p.is_oob <;> simp [nonOobSeqs, List.filter_append, h]

theorem consecFrom_succ (start n : Nat) :
    consecFrom start (n + 1) = consecFrom start n ++ [(start + n) % maxSeq] := by
  simp [consecFrom, List.range_succ]

theorem popSeq_mem (seq : Nat) (l : List (Nat × Packet)) (p : Packet)
    (rest : List (Nat × Packet)) (h : popSeq seq l = some (p, rest)) :
    (seq, p) ∈ l ∧ ∀ x ∈ rest, x ∈ l := by
  induction l generalizing p rest with
  | nil => simp [popSeq] at h
  | cons e tl ih =>
    by_cases he : e.1 = seq
    · simp [popSeq, he] at h
      obtain ⟨hp, hrest⟩ := h
      constructor
      · have heq : (seq, p) = e := by rw [← he, ← hp]
        rw [heq]
        exact List.mem_cons_self e tl
      · intro x hx
        right
        rw [← hrest] at hx
        exact hx
    · rw [popSeq] at h
      simp [he] at h
      cases hrec : popSeq seq tl with
      | none => rw [hrec] at h; simp at h
      | some pr =>
        rw [hrec] at h
        cases pr with
        | mk p' rest' =>
          simp at h
          obtain ⟨hp, hrest⟩ := h
          obtain ⟨hmem, hsub⟩ := ih p' rest' (by rw [hrec])
          constructor
          · right; rw [hp] at hmem; exact hmem
          · intro x hx
            rw [← hrest] at hx
            cases hx with
            | head => left
            | tail _ hx' => right; exact hsub x hx'

/-- Invariant of the receive thread state: the delivered ordered stream is
exactly the consecutive run `1, 2, …` (mod `2^seq_bits`), `expected_seq`
points one past it, and the window buffers only ordered packets under
their own sequence number. -/
def RecvInv (st : RecvState) : Prop :=
  st.window.expected_seq = (1 + (nonOobSeqs st.queue).length) % maxSeq ∧
  nonOobSeqs st.queue = consecFrom 1 (nonOobSeqs st.queue).length ∧
  ∀ e ∈ st.window.buffer, e.2.seq = e.1 ∧ e.2.is_oob = false

theorem init_inv : RecvInv RecvState.init := by
  refine ⟨?_, ?_, ?_⟩ <;>
    simp [RecvState.init, ReceiveWindow.init, nonOobSeqs, consecFrom, maxSeq_eq]

theorem deliverLoop_inv (fuel : Nat) :
    ∀ st : RecvState, RecvInv st → RecvInv (deliverLoop fuel st) := by
  induction fuel with
  | zero => intro st h; exact h
  | succ fuel ih =>
    intro st h
    obtain ⟨hexp, hcons, hbuf⟩ := h
    rw [deliverLoop]
    cases hpop : popSeq st.window.expected_seq st.window.buffer with
    | none =>
      simp [ReceiveWindow.get, hpop]
      exact ⟨hexp, hcons, hbuf⟩
    | some pr =>
      cases pr with
      | mk p rest =>
        simp only [ReceiveWindow.get, hpop]
        apply ih
        obtain ⟨hmem, hsub⟩ := popSeq_mem _ _ _ _ hpop
        obtain ⟨hseq, hoob⟩ := hbuf _ hmem
        simp only at hseq hoob
        constructor
        · -- new expected_seq
          show (st.window.expected_seq + 1) % maxSeq = _
          rw [nonOobSeqs_append, hoob]
          simp only [if_false, Bool.false_eq_true, List.length_append, List.length_cons,
            List.length_nil]
          rw [hexp, mod_succ_mod]
          congr 1
        constructor
        · -- delivered stream stays consecutive
          show nonOobSeqs (st.queue ++ [p]) = _
          rw [nonOobSeqs_append, hoob]
          simp only [if_false, Bool.false_eq_true, List.length_append, List.length_cons,
            List.length_nil]
          rw [consecFrom_succ]
          rw [← hcons, hseq, hexp]
        · -- buffered entries still well-keyed, ordered only
          intro e he
          exact hbuf e (hsub e he)

theorem deliver_sequence_inv (st : RecvState) (h : RecvInv st) :
    RecvInv st.deliver_sequence :=
  deliverLoop_inv _ st h

theorem handle_pkt_inv (st : RecvState) (pkt : Packet) (h : RecvInv st) :
    RecvInv (st.handle_pkt pkt) := by
  obtain ⟨hexp, hcons, hbuf⟩ := h
  rw [RecvState.handle_pkt]
  by_cases hoob : pkt.is_oob
  · simp only [hoob, if_true, RecvState.deliver]
    refine ⟨?_, ?_, hbuf⟩
    · show st.window.expected_seq = _
      rw [nonOobSeqs_append, hoob]
      simpa using hexp
    · show nonOobSeqs (st.queue ++ [pkt]) = _
      rw [nonOobSeqs_append, hoob]
      simpa using hcons
  · simp only [hoob, if_false, Bool.false_eq_true]
    by_cases h1 : st.window.is_out_of_order pkt.seq
    · simp only [h1, if_true]; exact ⟨hexp, hcons, hbuf⟩
    · simp only [h1, if_false, Bool.false_eq_true]
      by_cases h2 : st.window.hasSeq pkt.seq
      · simp only [h2, if_true]; exact ⟨hexp, hcons, hbuf⟩
      · simp only [h2, if_false, Bool.false_eq_true]
        have hput : RecvInv { st with window := st.window.put pkt.seq pkt } := by
          refine ⟨hexp, hcons, ?_⟩
          intro e he
          simp only [ReceiveWindow.put, List.mem_append, List.mem_singleton] at he
          cases he with
          | inl h' => exact hbuf e h'
          | inr h' =>
            subst h'
            exact ⟨rfl, Bool.not_eq_true _ ▸ by simpa using hoob⟩
        by_cases h3 : (st.window.put pkt.seq pkt).is_expected pkt.seq
        · simp only [h3, if_true]
          exact deliver_sequence_inv _ hput
        · simp only [h3, if_false, Bool.false_eq_true]
          exact hput

theorem handle_frame_inv (st : RecvState) (f : Frame) (h : RecvInv st) :
    RecvInv (st.handle_frame f) := by
  rw [RecvState.handle_frame]
  induction f.pkts generalizing st with
  | nil => exact h
  | cons p tl ih => exact ih _ (handle_pkt_inv _ _ h)

theorem processFrames_inv (frames : List Frame) : RecvInv (processFrames frames) := by
  rw [processFrames]
  have : ∀ st : RecvState, RecvInv st → RecvInv (frames.foldl RecvState.handle_frame st) := by
    induction frames with
    | nil => intro st h; exact h
    | cons f tl ih => intro st h; exact ih _ (handle_frame_inv _ _ h)
  exact this _ init_inv

theorem consecFrom_nodup (start n : Nat) (h : n ≤ maxSeq) : (consecFrom start n).Nodup := by
  rw [consecFrom]
  apply List.Nodup.map_on ?_ (List.nodup_range _)
  intro i hi j hj hij
  simp only [List.mem_range] at hi hj
  rw [maxSeq_eq] at h
  rw [maxSeq_eq] at hij
  omega

end PyCozmo

namespace PyCozmo

/-- C1: for every sequence of frames processed by the receive loop, the
non-out-of-band packets pushed to the client's output queue carry exactly
the consecutive sequence numbers `1, 2, …` modulo `2^seq_bits` — hence
they are pushed in strictly ascending sequence order starting from the
initial `expected_seq`, and (within one wrap of the sequence space) each
sequence number is delivered at most once; moreover every out-of-band
packet is pushed to the output queue immediately on arrival, leaving the
receive window untouched. -/
theorem receive_loop_ordered_delivery :
    (∀ frames : List Frame,
        nonOobSeqs (processFrames frames).queue =
          consecFrom 1 (nonOobSeqs (processFrames frames).queue).length ∧
        ((nonOobSeqs (processFrames frames).queue).length ≤ maxSeq →
          (nonOobSeqs (processFrames frames).queue).Nodup)) ∧
    (∀ (st : RecvState) (pkt : Packet), pkt.is_oob = true →
        st.handle_pkt pkt = { st with queue := st.queue ++ [pkt] }) := by
  constructor
  · intro frames
    obtain ⟨_, hcons, _⟩ := processFrames_inv frames
    refine ⟨hcons, fun hle => ?_⟩
    rw [hcons]
    exact consecFrom_nodup _ _ (hcons ▸ hle)
  · intro st pkt hoob
    rw [RecvState.handle_pkt]
    simp [hoob, RecvState.deliver]

/-- A concrete frame for the C1 witness: two ordered packets and one
out-of-band event interleaved. -/
def witnessFrame : Frame :=
  ⟨.engine, 1, 2, 0, [⟨.other, 1, 0, []⟩, ⟨.event, 0, 0, []⟩, ⟨.other, 2, 0, []⟩]⟩

theorem receive_loop_ordered_delivery_witness :
    (nonOobSeqs (processFrames [witnessFrame]).queue =
        consecFrom 1 (nonOobSeqs (processFrames [witnessFrame]).queue).length ∧
      (nonOobSeqs (processFrames [witnessFrame]).queue).Nodup) ∧
    RecvState.init.handle_pkt ⟨.ping, 0, 0, []⟩ =
      { RecvState.init with queue := RecvState.init.queue ++ [⟨.ping, 0, 0, []⟩] } :=
  ⟨⟨(receive_loop_ordered_delivery.1 [witnessFrame]).1,
    (receive_loop_ordered_delivery.1 [witnessFrame]).2 (by decide)⟩,
   receive_loop_ordered_delivery.2 _ _ rfl⟩

/-! ## Send window and send thread (`SendThread` in `client.py`)

The send window itself is modelled from the spec (`window.py` is not
among the shown sources); `SendThread.ack`, `SendThread.run`'s frame
construction, `set_last_ack` and `reset` are translated from
`client.py`. -/

/-- Modelled from the spec: `{ expected_seq, capacity, seq_bits, buffer:
ordered mapping seq → Packet }` where `expected_seq` is the lowest
unacknowledged sequence number and `put` auto-increments the last
assigned sequence, wrapping at `2^seq_bits`. -/
structure SendWindow where
  expected_seq : Nat
  last_seq : Nat
  size : Nat
  buffer : List (Nat × Packet)
  deriving DecidableEq, Repr

/-- Initial send window: `expected_seq = 1`, no sequence assigned yet. -/
def SendWindow.init (size : Nat) : SendWindow :=
  ⟨1, 0, size, []⟩

/-- Modelled from the spec: a (to-be-acked) seq is out of order iff it is
behind `expected_seq` — the forward distance modulo `2^seq_bits` exceeds
half the sequence space (signed-distance comparison). -/
def SendWindow.is_out_of_order (w : SendWindow) (seq : Nat) : Bool :=
  decide (halfSeq < fwdDist w.expected_seq seq)

/-- Modelled from the spec: assign the next sequence number
(auto-incrementing, wrapping at `2^seq_bits`), buffer the packet under
it, and return the assigned seq. -/
def SendWindow.putPkt (w : SendWindow) (pkt : Packet) : Nat × SendWindow :=
  let seq := (w.last_seq + 1) % maxSeq
  (seq, { w with last_seq := seq, buffer := w.buffer ++ [(seq, pkt)] })

/-- Modelled from the spec: `reset()` clears the buffer and sets
`expected_seq` back to 1. -/
def SendWindow.resetW (w : SendWindow) : SendWindow :=
  { w with expected_seq := 1, last_seq := 0, buffer := [] }

/-- The state of `SendThread` visible to the client: its window, the
cumulative ack piggybacked on outbound frames (`last_ack`), and the
timestamp of the last transmission. -/
structure SendThreadState where
  window : SendWindow
  last_ack : Nat
  last_send_timestamp : Option Int
  deriving DecidableEq, Repr

/-- Fresh send thread state (`window_size = 256`, `last_ack = 1`). -/
def SendThreadState.init : SendThreadState :=
  ⟨SendWindow.init 256, 1, none⟩

/-- The `while self.window.expected_seq <= seq: self.window.pop()` loop of
`SendThread.ack`, translated from `client.py`.  The comparison is the
source's plain integer `<=` (not a mod-aware one).  Each `pop` drops the
oldest buffered entry and advances `expected_seq` by one modulo
`2^seq_bits`; popping an empty buffer raises in the source
(`none` models that error). -/
def ackLoop (seq : Nat) : List (Nat × Packet) → Nat → Option (Nat × List (Nat × Packet))
  | [], e => if e ≤ seq then none else some (e, [])
  | x :: rest, e =>
    if e ≤ seq then ackLoop seq rest ((e + 1) % maxSeq)
    else some (e, x :: rest)

/-- Translation of `SendThread.ack` from `client.py`: ignore a stale (out-of-order) ack,
otherwise pop entries while `expected_seq <= seq` under plain integer
comparison.  `none` models the uncaught error raised by popping an empty
buffer. -/
def SendThreadState.ack (st : SendThreadState) (seq : Nat) : Option SendThreadState :=
  if st.window.is_out_of_order seq then some st
  else
    match ackLoop seq st.window.buffer st.window.expected_seq with
    | none => none
    | some (e, buf) =>
      some { st with window := { st.window with expected_seq := e, buffer := buf } }

/-- Translation of `SendThread.set_last_ack` from `client.py`. -/
def SendThreadState.set_last_ack (st : SendThreadState) (last_ack : Nat) : SendThreadState :=
  { st with last_ack := last_ack }

/-- Translation of `SendThread.reset` from `client.py`: reset the window, `last_ack = 1`,
clear the last-send timestamp. -/
def SendThreadState.resetT (st : SendThreadState) : SendThreadState :=
  ⟨st.window.resetW, 1, none⟩

/-- The frame-construction step of `SendThread.run` from `client.py`: a
`Ping` packet is wrapped in a `PING` frame with `first_seq = seq = 0` and
the current `last_ack`, bypassing the window; any other packet is
assigned a sequence by `SendWindow.put` and wrapped in an `ENGINE` frame
carrying that sequence as both `first_seq` and `seq`.  The send timestamp
is recorded after transmission. -/
def SendThreadState.sendItem (st : SendThreadState) (pkt : Packet) (now : Int) :
    SendThreadState × Frame :=
  if pkt.kind = .ping then
    ({ st with last_send_timestamp := some now },
     ⟨.ping, 0, 0, st.last_ack, [pkt]⟩)
  else
    let sw := st.window.putPkt pkt
    ({ st with window := sw.2, last_send_timestamp := some now },
     ⟨.engine, sw.1, sw.1, st.last_ack, [pkt]⟩)

end PyCozmo

namespace PyCozmo

/-! ## Client session state machine (`Client` in `client.py`) -/

/-- The client connection states `IDLE`, `CONNECTING`, `CONNECTED`. -/
inductive ConnState where
  | idle
  | connecting
  | connected
  deriving DecidableEq, Repr

/-- Session lifecycle events dispatched by the client
(`EvtRobotReady`, `EvtRobotFound`). -/
inductive EventKind where
  | robotReady
  | robotFound
  deriving DecidableEq, Repr

/-- The client's observable state: connection state, stored firmware
signature, the receive thread, the send thread, the timestamp of the last
packet handed to `Client.send` (`send_last`, in integer milliseconds),
plus logs of its outputs — frames written directly to the socket
(`connect`'s RESET frame), packets handed to the send thread's queue, and
dispatched lifecycle events. -/
structure ClientState where
  state : ConnState
  robot_fw_sig : Option (List Nat)
  recv : RecvState
  send_thread : SendThreadState
  send_last : Int
  sent_frames : List Frame
  sent_queue : List Packet
  events : List EventKind
  deriving DecidableEq, Repr

/-- Constant `PING_INTERVAL = 0.05` seconds, in integer milliseconds. -/
def pingIntervalMs : Int := 50

/-- The keepalive packet built by `Client._send_ping` (`Ping(0, 1, 0)`;
the constructor arguments are kept as its payload). -/
def pingPacket : Packet := ⟨.ping, 0, 0, [0, 1, 0]⟩

/-- The packet built by `Client.disconnect` (`Disconnect()`). -/
def disconnectPacket : Packet := ⟨.disconnect, 0, 0, []⟩

/-- Translation of `Client.send` from `client.py`: record the transmission timestamp and
hand the packet to the send thread's queue. -/
def ClientState.send (c : ClientState) (now : Int) (pkt : Packet) : ClientState :=
  { c with send_last := now, sent_queue := c.sent_queue ++ [pkt] }

/-- Translation of `Client._send_ping` from `client.py`. -/
def ClientState.send_ping (c : ClientState) (now : Int) : ClientState :=
  c.send now pingPacket

/-- The keepalive check of `Client.run` (`client.py`, lines 237-240): from
`CONNECTED`, send a ping whenever more than `PING_INTERVAL` has elapsed
since the last transmission. -/
def ClientState.maybe_ping (c : ClientState) (now : Int) : ClientState :=
  if c.state = .connected ∧ pingIntervalMs < now - c.send_last then
    c.send_ping now
  else c

/-- The RESET frame transmitted by `Client.connect`. -/
def resetFrame : Frame := ⟨.reset, 1, 1, 0, []⟩

/-- Translation of `Client.connect` from `client.py`: set the state to `CONNECTING`,
reset the send thread, and transmit one RESET frame directly on the
socket.  (The receive thread is not touched.) -/
def ClientState.connect (c : ClientState) : ClientState :=
  { c with
      state := .connecting
      send_thread := c.send_thread.resetT
      sent_frames := c.sent_frames ++ [resetFrame] }

/-- Translation of `Client.disconnect` from `client.py`: a no-op unless `CONNECTED`;
otherwise send one `Disconnect` packet. -/
def ClientState.disconnect (c : ClientState) (now : Int) : ClientState :=
  if c.state ≠ .connected then c
  else c.send now disconnectPacket

/-- The scripted initialization burst of `Client._initialize_robot`:
three device-enable commands followed by seven repetitions of the
display-clear pair. -/
def initCommands : List Packet :=
  [⟨.unknownCommand, 0, 0, [0x25]⟩,
   ⟨.unknownCommand, 0, 0, [0x4b, 0xc4, 0xb6, 0x39, 0x00, 0x00, 0x00, 0xa0, 0xc1]⟩,
   ⟨.unknownCommand, 0, 0, [0x9f]⟩] ++
  (List.replicate 7 [(⟨.nextFrame, 0, 0, []⟩ : Packet), ⟨.displayImage, 0, 0, [0x3f, 0x3f]⟩]).flatten

/-- Translation of `Client._initialize_robot` from `client.py`: send the fixed command
sequence, then dispatch `EvtRobotReady`.  (The `time.sleep(1)` between
the burst and the dispatch is real time and is not modelled.) -/
def ClientState.init_robot (c : ClientState) (now : Int) : ClientState :=
  let c' := initCommands.foldl (fun acc p => acc.send now p) c
  { c' with events := c'.events ++ [EventKind.robotReady] }

/-- Translation of `Client._on_firmware_signature` from `client.py`: store the parsed
signature (JSON parsing abstracted to storing the signature payload), run
the initialization sequence (which dispatches `EvtRobotReady`), then
dispatch `EvtRobotFound`. -/
def ClientState.on_firmware_signature (c : ClientState) (pkt : Packet) (now : Int) :
    ClientState :=
  let c' := { c with robot_fw_sig := some pkt.payload }
  let c'' := c'.init_robot now
  { c'' with events := c''.events ++ [EventKind.robotFound] }

/-- The handler dispatch of `Client.run` for a received packet, as
registered by `Client.start`: `_on_connect` for `Connect` (sets the state
to `CONNECTED`), `_on_firmware_signature` for `FirmwareSignature`,
`_on_ping` for `Ping` (does nothing); packets with no registered handler
leave the client unchanged. -/
def ClientState.dispatchPacket (c : ClientState) (pkt : Packet) (now : Int) : ClientState :=
  match pkt.kind with
  | .connect => { c with state := .connected }
  | .firmwareSignature => c.on_firmware_signature pkt now
  | _ => c

/-- Error raised by a run-loop cycle: `SendThread.ack` popping an empty
send-window buffer. -/
inductive RunError where
  | indexError
  deriving DecidableEq, Repr

/-- One cycle of `Client.run` from `client.py`: drain at most one packet
from the receive thread's queue; if one was drained, feed its `ack` into
the send window's accounting and, for non-out-of-band packets, update the
cumulative ack; then run the keepalive check; finally dispatch the packet
(the no-packet tick dispatches to no registered handler). -/
def ClientState.run_cycle (c : ClientState) (inbox : Option Packet) (now : Int) :
    Except RunError ClientState :=
  match inbox with
  | none => .ok (c.maybe_ping now)
  | some pkt =>
    match c.send_thread.ack pkt.ack with
    | none => .error .indexError
    | some stA =>
      let stB := if pkt.is_oob then stA else stA.set_last_ack pkt.seq
      let c' := { c with send_thread := stB }
      .ok ((c'.maybe_ping now).dispatchPacket pkt now)

/-- The timeout failure of `Client.wait_for_robot`. -/
inductive WaitError where
  | timeoutError
  deriving DecidableEq, Repr

/-- Translation of `Client.wait_for_robot` from `client.py`: register a one-shot handler
for `EvtRobotReady` on a fresh synchronization event and wait for it with
a timeout.  The wait on the synchronization primitive is modelled by the
oracle `readyWithinTimeout`: whether `EvtRobotReady` is dispatched before
the timeout elapses.  The method reads no client field other than the
handler registry and returns the client state unmodified. -/
def ClientState.wait_for_robot (c : ClientState) (readyWithinTimeout : Bool) :
    Except WaitError ClientState :=
  if readyWithinTimeout then .ok c else .error .timeoutError

/-! ## Frame decoding and the receive loop body

`Frame.from_bytes` lives in `frame.py`, which is not among the shown
sources; it is modelled from the spec. -/

/-- Decode failure on a corrupt or truncated datagram. -/
inductive DecodeError where
  | malformedFrame
  deriving DecidableEq, Repr

/-- A 16-bit little-endian field from two bytes. -/
def u16 (lo hi : Nat) : Nat := lo + 256 * hi

/-- Modelled from the spec: frame type enumeration byte; a byte outside
the enumeration makes the frame malformed. -/
def byteToFrameType (b : Nat) : Option FrameType :=
  match b with
  | 1 => some .reset
  | 2 => some .engine
  | 3 => some .ping
  | 4 => some .disconnect
  | _ => none

/-- Modelled from the spec: packets within a frame are self-delimiting —
a numeric kind byte, a declared payload length, then the payload; a
packet whose declared length runs past the buffer end is a
`MalformedFrame` error.  Unknown kind ids decode into the generic
unknown-command variant rather than failing. -/
def decodePackets (bs : List Nat) : Except DecodeError (List Packet) :=
  match bs with
  | [] => .ok []
  | [_] => .error .malformedFrame
  | _kind :: len :: rest =>
    if rest.length < len then .error .malformedFrame
    else
      match decodePackets (rest.drop len) with
      | .error e => .error e
      | .ok pkts => .ok (⟨.unknownCommand, 0, 0, rest.take len⟩ :: pkts)
termination_by bs.length
decreasing_by
  simp only [List.length_cons, List.length_drop]
  omega

/-- Modelled from the spec: `decode(bytes) -> Frame` fails with
`MalformedFrame` when the buffer is shorter than the fixed header (one
type byte and three 16-bit fields) or contains a packet whose declared
length runs past the buffer end. -/
def Frame.from_bytes (bs : List Nat) : Except DecodeError Frame :=
  match bs with
  | t :: f1 :: f2 :: s1 :: s2 :: a1 :: a2 :: rest =>
    match byteToFrameType t with
    | none => .error .malformedFrame
    | some ft =>
      match decodePackets rest with
      | .error e => .error e
      | .ok pkts => .ok ⟨ft, u16 f1 f2, u16 s1 s2, u16 a1 a2, pkts⟩
  | _ => .error .malformedFrame

/-- The datagram-handling tail of `ReceiveThread.run` from `client.py`:
`Frame.from_bytes` is called with no surrounding exception handler, so a
decode failure propagates out of the loop body (killing the thread);
otherwise the frame is handled normally. -/
def RecvState.runIteration (st : RecvState) (datagram : List Nat) :
    Except DecodeError RecvState :=
  match Frame.from_bytes datagram with
  | .error e => .error e
  | .ok f => .ok (st.handle_frame f)

end PyCozmo

namespace PyCozmo

/-! ## C2: send-side acknowledgement -/

/-- An in-flight buffered packet with the given sequence. -/
def bufPkt (s : Nat) : Packet := ⟨.other, s, 0, []⟩

/-- A send thread whose window has wrapped: `expected_seq = 65535` with
the packets `65535, 0, 1, 2` in flight. -/
def wrapAckState : SendThreadState :=
  ⟨⟨65535, 2, 256, [(65535, bufPkt 65535), (0, bufPkt 0), (1, bufPkt 1), (2, bufPkt 2)]⟩,
   1, none⟩

/-- C2 (code-bug evidence): at the wraparound boundary the acknowledgement
`seq = 2` reaching a window with `expected_seq = 65535` is accepted as
in-order by the signed-distance staleness check, yet `SendThread.ack`
removes nothing — its `while expected_seq <= seq` loop uses plain integer
comparison, so the four acknowledged packets `65535, 0, 1, 2` all stay
buffered, contradicting the mod-aware cumulative-ack behaviour the
surrounding code and the staleness check assume. -/
theorem ack_misses_wraparound :
    wrapAckState.window.is_out_of_order 2 = false ∧
    wrapAckState.ack 2 = some wrapAckState ∧
    wrapAckState.window.buffer.length = 4 :=
  ⟨by decide, by decide, rfl⟩

/-! ## C3: `Client.connect` -/

/-- A client carrying stale receive-window state from a previous session:
`expected_seq` advanced to 42 with one packet still buffered. -/
def staleRecvClient : ClientState :=
  { state := .connected
    robot_fw_sig := none
    recv := ⟨⟨42, 256, [(43, ⟨.other, 43, 0, []⟩)]⟩, []⟩
    send_thread := SendThreadState.init
    send_last := 0
    sent_frames := []
    sent_queue := []
    events := [] }

/-- C3 (counterexample): `Client.connect` does not reset the receive-side
window — on a client with stale receive state it leaves the receive
thread exactly as it was, which differs from the initial window state. -/
theorem connect_leaves_receive_window_stale :
    staleRecvClient.connect.recv = staleRecvClient.recv ∧
    staleRecvClient.connect.recv ≠ RecvState.init :=
  ⟨rfl, by decide⟩

/-- C3 (amended): every call to `Client.connect`, from any state, sets the
client state to CONNECTING, resets the send-side window to its initial
state, and transmits exactly one RESET frame with `first_seq = 1`,
`seq = 1`, `ack = 0` and an empty packet list; the receive-side window is
left unchanged (only the send side is reset). -/
theorem connect_spec (c : ClientState) :
    c.connect.state = .connecting ∧
    c.connect.send_thread.window.buffer = [] ∧
    c.connect.send_thread.window.expected_seq = 1 ∧
    c.connect.send_thread.window.last_seq = 0 ∧
    c.connect.send_thread.last_ack = 1 ∧
    c.connect.sent_frames = c.sent_frames ++ [⟨.reset, 1, 1, 0, []⟩] ∧
    c.connect.recv = c.recv :=
  ⟨rfl, rfl, rfl, rfl, rfl, rfl, rfl⟩

/-! ## C4: malformed datagrams in the receive loop -/

/-- C4 (code-bug evidence): the receive-loop body does not drop malformed
datagrams — both a truncated header (the empty datagram) and a packet
whose declared length runs past the buffer end make the loop body
propagate `MalformedFrame` instead of completing, and `ReceiveThread.run`
has no handler for it. -/
theorem receive_loop_decode_error_escapes :
    RecvState.init.runIteration [] = .error .malformedFrame ∧
    RecvState.init.runIteration [1, 0, 0, 0, 0, 0, 0, 5, 9] = .error .malformedFrame := by
  constructor
  · rfl
  · simp [RecvState.runIteration, Frame.from_bytes, decodePackets, byteToFrameType]

/-! ## C5: send-loop frame construction -/

/-- C5: every dequeued `Ping` packet is transmitted in a `PING` frame with
`first_seq = 0`, `seq = 0` and `ack = last_ack`, without touching the
send window; every other packet is assigned the next sequence by
`SendWindow.put` and transmitted in an `ENGINE` frame carrying that
sequence as both `first_seq` and `seq`, with `ack = last_ack`. -/
theorem send_loop_frame_construction (st : SendThreadState) (pkt : Packet) (now : Int) :
    (pkt.kind = .ping →
      (st.sendItem pkt now).2.type = .ping ∧
      (st.sendItem pkt now).2.first_seq = 0 ∧
      (st.sendItem pkt now).2.seq = 0 ∧
      (st.sendItem pkt now).2.ack = st.last_ack ∧
      (st.sendItem pkt now).2.pkts = [pkt] ∧
      (st.sendItem pkt now).1.window = st.window) ∧
    (pkt.kind ≠ .ping →
      (st.sendItem pkt now).2.type = .engine ∧
      (st.sendItem pkt now).2.first_seq = (st.window.putPkt pkt).1 ∧
      (st.sendItem pkt now).2.seq = (st.window.putPkt pkt).1 ∧
      (st.sendItem pkt now).2.ack = st.last_ack ∧
      (st.sendItem pkt now).2.pkts = [pkt] ∧
      (st.sendItem pkt now).1.window = (st.window.putPkt pkt).2) := by
  constructor
  · intro h
    simp [SendThreadState.sendItem, h]
  · intro h
    simp [SendThreadState.sendItem, h]

theorem send_loop_frame_construction_witness :
    ((SendThreadState.init.sendItem pingPacket 0).2.type = .ping ∧
     (SendThreadState.init.sendItem pingPacket 0).2.first_seq = 0 ∧
     (SendThreadState.init.sendItem pingPacket 0).2.seq = 0 ∧
     (SendThreadState.init.sendItem pingPacket 0).2.ack = SendThreadState.init.last_ack ∧
     (SendThreadState.init.sendItem pingPacket 0).2.pkts = [pingPacket] ∧
     (SendThreadState.init.sendItem pingPacket 0).1.window = SendThreadState.init.window) ∧
    ((SendThreadState.init.sendItem (bufPkt 0) 0).2.type = .engine ∧
     (SendThreadState.init.sendItem (bufPkt 0) 0).2.first_seq =
       (SendThreadState.init.window.putPkt (bufPkt 0)).1 ∧
     (SendThreadState.init.sendItem (bufPkt 0) 0).2.seq =
       (SendThreadState.init.window.putPkt (bufPkt 0)).1 ∧
     (SendThreadState.init.sendItem (bufPkt 0) 0).2.ack = SendThreadState.init.last_ack ∧
     (SendThreadState.init.sendItem (bufPkt 0) 0).2.pkts = [bufPkt 0] ∧
     (SendThreadState.init.sendItem (bufPkt 0) 0).1.window =
       (SendThreadState.init.window.putPkt (bufPkt 0)).2) :=
  ⟨(send_loop_frame_construction SendThreadState.init pingPacket 0).1 rfl,
   (send_loop_frame_construction SendThreadState.init (bufPkt 0) 0).2 (by decide)⟩

end PyCozmo

namespace PyCozmo

/-! ## Helper lemmas on the client state machine -/

/-- A freshly constructed client (`Client.__init__`): IDLE state, fresh
threads, `send_last` one day (86400000 ms) in the past. -/
def ClientState.initC (now : Int) : ClientState :=
  { state := .idle
    robot_fw_sig := none
    recv := RecvState.init
    send_thread := SendThreadState.init
    send_last := now - 86400000
    sent_frames := []
    sent_queue := []
    events := [] }

theorem foldl_send_fields (l : List Packet) (c : ClientState) (now : Int) :
    (l.foldl (fun acc p => acc.send now p) c).state = c.state ∧
    (l.foldl (fun acc p => acc.send now p) c).events = c.events ∧
    (l.foldl (fun acc p => acc.send now p) c).robot_fw_sig = c.robot_fw_sig ∧
    (l.foldl (fun acc p => acc.send now p) c).sent_queue = c.sent_queue ++ l ∧
    (l.foldl (fun acc p => acc.send now p) c).send_thread = c.send_thread ∧
    (l.foldl (fun acc p => acc.send now p) c).recv = c.recv := by
  induction l generalizing c with
  | nil => simp
  | cons p tl ih =>
    simp only [List.foldl_cons]
    obtain ⟨h1, h2, h3, h4, h5, h6⟩ := ih (c.send now p)
    refine ⟨h1, h2, h3, ?_, h5, h6⟩
    rw [h4]
    simp [ClientState.send]

theorem on_firmware_signature_fields (c : ClientState) (pkt : Packet) (now : Int) :
    (c.on_firmware_signature pkt now).state = c.state ∧
    (c.on_firmware_signature pkt now).send_thread = c.send_thread ∧
    (c.on_firmware_signature pkt now).recv = c.recv := by
  obtain ⟨h1, _, _, _, h5, h6⟩ :=
    foldl_send_fields initCommands { c with robot_fw_sig := some pkt.payload } now
  simp only [ClientState.on_firmware_signature, ClientState.init_robot]
  exact ⟨h1, h5, h6⟩

theorem dispatchPacket_fields (c : ClientState) (p : Packet) (now : Int) :
    (c.dispatchPacket p now).send_thread = c.send_thread ∧
    (c.dispatchPacket p now).recv = c.recv ∧
    (p.kind ≠ .connect → (c.dispatchPacket p now).state = c.state) := by
  rw [ClientState.dispatchPacket]
  cases hk : p.kind
  case connect => exact ⟨rfl, rfl, fun h => absurd rfl h⟩
  case firmwareSignature =>
    obtain ⟨h1, h2, h3⟩ := on_firmware_signature_fields c p now
    exact ⟨h2, h3, fun _ => h1⟩
  all_goals exact ⟨rfl, rfl, fun _ => rfl⟩

theorem maybe_ping_fields (c : ClientState) (now : Int) :
    (c.maybe_ping now).send_thread = c.send_thread ∧
    (c.maybe_ping now).state = c.state ∧
    (c.maybe_ping now).recv = c.recv ∧
    (c.maybe_ping now).robot_fw_sig = c.robot_fw_sig := by
  rw [ClientState.maybe_ping]
  split
  · exact ⟨rfl, rfl, rfl, rfl⟩
  · exact ⟨rfl, rfl, rfl, rfl⟩

theorem ack_preserves_acc (st : SendThreadState) (seq : Nat) (stA : SendThreadState)
    (h : st.ack seq = some stA) :
    stA.last_ack = st.last_ack ∧ stA.last_send_timestamp = st.last_send_timestamp := by
  rw [SendThreadState.ack] at h
  by_cases hs : st.window.is_out_of_order seq
  · simp only [hs, if_true] at h
    cases h
    exact ⟨rfl, rfl⟩
  · simp only [hs, if_false, Bool.false_eq_true] at h
    cases hl : ackLoop seq st.window.buffer st.window.expected_seq with
    | none => rw [hl] at h; simp at h
    | some pr =>
      rw [hl] at h
      cases pr with
      | mk e buf =>
        simp only at h
        cases h
        exact ⟨rfl, rfl⟩

end PyCozmo

namespace PyCozmo

theorem foldl_dispatch_state (pkts : List Packet) (now : Int) :
    ∀ c : ClientState, c.state = .connecting → (∀ p ∈ pkts, p.kind ≠ .connect) →
      (pkts.foldl (fun acc p => acc.dispatchPacket p now) c).state = .connecting := by
  induction pkts with
  | nil => intro c h _; exact h
  | cons p tl ih =>
    intro c h hall
    simp only [List.foldl_cons]
    apply ih
    · rw [(dispatchPacket_fields c p now).2.2 (hall p (List.mem_cons_self p tl))]
      exact h
    · intro q hq
      exact hall q (List.mem_cons_of_mem _ hq)

/-! ## C6: `Client.wait_for_robot` -/

/-- C6: `wait_for_robot` returns normally iff `EvtRobotReady` is
dispatched within the timeout (the wait on the synchronization event is
modelled by the boolean oracle `fired`), raising a timeout error
otherwise, and it hands back the client state unmodified; moreover after
`connect()`, dispatching any packet sequence containing no `Connect`
packet leaves the client state at `CONNECTING`. -/
theorem wait_for_robot_spec (c : ClientState) (fired : Bool) (now : Int)
    (pkts : List Packet) :
    (c.wait_for_robot fired = .ok c ↔ fired = true) ∧
    (c.wait_for_robot fired = .error .timeoutError ↔ fired = false) ∧
    ((∀ p ∈ pkts, p.kind ≠ .connect) →
      (pkts.foldl (fun acc p => acc.dispatchPacket p now) c.connect).state =
        .connecting) := by
  refine ⟨?_, ?_, ?_⟩
  · cases fired <;> simp [ClientState.wait_for_robot]
  · cases fired <;> simp [ClientState.wait_for_robot]
  · intro hall
    exact foldl_dispatch_state pkts now c.connect rfl hall

theorem wait_for_robot_spec_witness :
    ((ClientState.initC 0).wait_for_robot false = .error .timeoutError ↔ false = false) ∧
    (([⟨.other, 1, 0, []⟩, ⟨.firmwareSignature, 2, 0, [7]⟩] : List Packet).foldl
        (fun acc p => acc.dispatchPacket p 0) (ClientState.initC 0).connect).state =
      .connecting := by
  have h := wait_for_robot_spec (ClientState.initC 0) false 0
    [⟨.other, 1, 0, []⟩, ⟨.firmwareSignature, 2, 0, [7]⟩]
  exact ⟨h.2.1, h.2.2 (by decide)⟩

/-! ## C7: keepalive timing -/

/-- A connected client whose last transmission is one day old. -/
def connectedClient : ClientState :=
  { ClientState.initC 0 with state := .connected }

/-- C7: the run-loop initiates a keepalive ping exactly when the state is
CONNECTED and strictly more than `PING_INTERVAL` (50 ms) has elapsed
since the last transmission; in IDLE and CONNECTING it never pings, nor
when the interval has not yet elapsed; and `Client.send` is what records
the last-transmission timestamp. -/
theorem keepalive_ping_timing (c : ClientState) (now : Int) (pkt : Packet) :
    (c.state = .connected → pingIntervalMs < now - c.send_last →
      c.maybe_ping now = c.send now pingPacket) ∧
    (c.state ≠ .connected → c.maybe_ping now = c) ∧
    (now - c.send_last ≤ pingIntervalMs → c.maybe_ping now = c) ∧
    (c.maybe_ping now ≠ c → c.state = .connected ∧ pingIntervalMs < now - c.send_last) ∧
    (c.send now pkt).send_last = now := by
  refine ⟨?_, ?_, ?_, ?_, rfl⟩
  · intro h1 h2
    rw [ClientState.maybe_ping, if_pos ⟨h1, h2⟩]
    rfl
  · intro h1
    rw [ClientState.maybe_ping, if_neg]
    rintro ⟨hc, -⟩
    exact h1 hc
  · intro h2
    rw [ClientState.maybe_ping, if_neg]
    rintro ⟨-, hlt⟩
    omega
  · intro hne
    by_cases hc : c.state = .connected ∧ pingIntervalMs < now - c.send_last
    · exact hc
    · exact absurd (by rw [ClientState.maybe_ping, if_neg hc]) hne

theorem keepalive_ping_timing_witness :
    connectedClient.maybe_ping 0 = connectedClient.send 0 pingPacket ∧
    (ClientState.initC 0).maybe_ping 0 = ClientState.initC 0 :=
  ⟨(keepalive_ping_timing connectedClient 0 pingPacket).1 rfl (by decide),
   (keepalive_ping_timing (ClientState.initC 0) 0 pingPacket).2.1 (by decide)⟩

/-! ## C8: run-loop ack accounting -/

/-- C8: for every packet drained from the receive queue, the run cycle
feeds the packet's `ack` into the send window's ack accounting
(the resulting send window is exactly the acked one), and updates the
cumulative ack `last_ack` to the packet's `seq` only when the packet is
not out-of-band — an out-of-band packet never changes `last_ack`. -/
theorem run_cycle_ack_accounting (c : ClientState) (pkt : Packet) (now : Int)
    (stA : SendThreadState) (r : ClientState)
    (hA : c.send_thread.ack pkt.ack = some stA)
    (hr : c.run_cycle (some pkt) now = .ok r) :
    r.send_thread.window = stA.window ∧
    r.send_thread.last_ack =
      (if pkt.is_oob then c.send_thread.last_ack else pkt.seq) := by
  have hpres := ack_preserves_acc c.send_thread pkt.ack stA hA
  simp only [ClientState.run_cycle, hA] at hr
  injection hr with h
  subst h
  rw [(dispatchPacket_fields _ pkt now).1, (maybe_ping_fields _ now).1]
  by_cases ho : pkt.is_oob
  · simp only [ho, if_true]
    exact ⟨trivial, hpres.1⟩
  · simp only [ho, if_false, Bool.false_eq_true]
    exact ⟨rfl, rfl⟩

theorem run_cycle_ack_accounting_witness :
    ({ ClientState.initC 0 with
        send_thread := { SendThreadState.init with last_ack := 7 } }
      : ClientState).send_thread.window = SendThreadState.init.window ∧
    ({ ClientState.initC 0 with
        send_thread := { SendThreadState.init with last_ack := 7 } }
      : ClientState).send_thread.last_ack =
      (if (⟨.other, 7, 0, []⟩ : Packet).is_oob
       then (ClientState.initC 0).send_thread.last_ack
       else (⟨.other, 7, 0, []⟩ : Packet).seq) :=
  run_cycle_ack_accounting (ClientState.initC 0) ⟨.other, 7, 0, []⟩ 0
    SendThreadState.init
    { ClientState.initC 0 with
        send_thread := { SendThreadState.init with last_ack := 7 } }
    (by decide) rfl

/-! ## C9: `Client.disconnect` -/

/-- C9: `disconnect` never changes the connection state: from CONNECTED it
enqueues exactly one `Disconnect` packet for transmission, leaving the
send thread (window and cumulative ack), the receive side, the stored
signature and the event log untouched; from any other state it is a
complete no-op. -/
theorem disconnect_spec (c : ClientState) (now : Int) :
    (c.disconnect now).state = c.state ∧
    (c.state ≠ .connected → c.disconnect now = c) ∧
    (c.state = .connected →
      (c.disconnect now).sent_queue = c.sent_queue ++ [disconnectPacket] ∧
      (c.disconnect now).send_thread = c.send_thread ∧
      (c.disconnect now).recv = c.recv ∧
      (c.disconnect now).events = c.events ∧
      (c.disconnect now).robot_fw_sig = c.robot_fw_sig) := by
  by_cases h : c.state = .connected
  · rw [ClientState.disconnect, if_neg (by simp [h])]
    exact ⟨rfl, fun hn => absurd h hn, fun _ => ⟨rfl, rfl, rfl, rfl, rfl⟩⟩
  · rw [ClientState.disconnect, if_pos h]
    exact ⟨rfl, fun _ => rfl, fun hc => absurd hc h⟩

theorem disconnect_spec_witness :
    (connectedClient.disconnect 5).sent_queue =
      connectedClient.sent_queue ++ [disconnectPacket] ∧
    (ClientState.initC 0).disconnect 5 = ClientState.initC 0 :=
  ⟨((disconnect_spec connectedClient 5).2.2 rfl).1,
   (disconnect_spec (ClientState.initC 0) 5).2.1 (by decide)⟩

/-! ## C10: firmware-signature handling -/

/-- C10: on receipt of a `FirmwareSignature` packet the client stores the
parsed signature, sends the fixed initialization command burst, and
appends `EvtRobotReady` strictly before `EvtRobotFound` to the dispatched
events — each fired exactly once per packet received. -/
theorem firmware_signature_event_order (c : ClientState) (pkt : Packet) (now : Int) :
    (c.on_firmware_signature pkt now).robot_fw_sig = some pkt.payload ∧
    (c.on_firmware_signature pkt now).sent_queue = c.sent_queue ++ initCommands ∧
    (c.on_firmware_signature pkt now).events =
      c.events ++ [EventKind.robotReady, EventKind.robotFound] := by
  obtain ⟨_, h2, h3, h4, _, _⟩ :=
    foldl_send_fields initCommands { c with robot_fw_sig := some pkt.payload } now
  simp only [ClientState.on_firmware_signature, ClientState.init_robot]
  refine ⟨h3, h4, ?_⟩
  rw [h2]
  simp

end PyCozmo
